import Mathlib

/-!
Verification of the GPG-agent core (`trezor_agent/gpg/agent.py`).

The source is a line-oriented ASSUAN-style protocol server.  We embed it
shallowly: Python byte/character strings become `List Char` (each element one
byte / ASCII character), the socket's inbound stream becomes a list of
already-framed lines (the line reader strips the terminating newline and
raises end-of-file when the client disconnects), and each `conn.sendall`
payload is recorded in an output list.  External collaborators that live
outside the embedded file (`keyring`, `decode`, `encode`) are opaque
parameters gathered in a `Backend` record; the observable calls made to them
are recorded in an event trace.
-/

namespace GpgAgent

/-- Python errors that the embedded code can raise.  `valueError` is raised by
tuple unpacking with a mismatched length, `assertionError` by a failed
`assert`, `typeError` by `binascii.unhexlify` on `None`, an odd-length string
or a non-hexadecimal digit, and `indexError` by indexing an empty list. -/
inductive PyError where
  | assertionError
  | valueError
  | typeError
  | indexError
deriving DecidableEq, Repr

/-- Python `str.replace(pat, rep)` for a single-character pattern: every
occurrence of the character `pat` is replaced by `rep`. -/
def replace1 (pat : Char) (rep : List Char) : List Char → List Char
  | [] => []
  | c :: cs => (if c = pat then rep else [c]) ++ replace1 pat rep cs

/-- An uppercase hexadecimal digit, as produced by Python format `X`. -/
def hexDigit (n : Nat) : Char :=
  if n < 10 then Char.ofNat (Char.toNat '0' + n)
  else Char.ofNat (Char.toNat 'A' + (n - 10))

/-- Python format `'{:02X}'` for the code points that occur here (all below
256): two uppercase hexadecimal digits. -/
def hex2 (n : Nat) : List Char :=
  [hexDigit (n / 16), hexDigit (n % 16)]

/-- The replacement `'%{:02X}'.format(ord(c))` used by `serialize`. -/
def escSeq (c : Char) : List Char :=
  '%' :: hex2 c.toNat

/-- `serialize(data)` from the source: for each `c` in `['%', '\n', '\r']`, in
that order, `data = data.replace(c, '%{:02X}'.format(ord(c)))`. -/
def serialize (data : List Char) : List Char :=
  [('%' : Char), '\n', '\r'].foldl (fun d c => replace1 c (escSeq c) d) data

/-- The spec's wording of `Escape`: a single pass over the original text,
replacing each occurrence of `%`, line-feed or carriage-return by `%XX`
(two-digit uppercase hexadecimal code), with no re-scanning of the output.
This definition follows the spec's words; `serialize` follows the source. -/
def escapeSpec : List Char → List Char
  | [] => []
  | c :: cs =>
    (if c = '%' ∨ c = '\n' ∨ c = '\r' then escSeq c else [c]) ++ escapeSpec cs

/-- Modelled from the spec: `util.num2bytes(n, width)` is not under `src/`;
the spec describes the signature halves as fixed-width (32-byte) big-endian
unsigned integers, so the encoding is the `width` base-256 digits of `n`,
most significant first, as bytes. -/
def num2bytes (n : Nat) (width : Nat) : List Char :=
  (List.range width).map (fun i => Char.ofNat (n / 256 ^ (width - 1 - i) % 256))

/-- `sig_encode(r, s)` from the source: serialize both 32-byte big-endian
halves and splice them into the literal S-expression
`(7:sig-val(5:ecdsa(1:r32:{r})(1:s32:{s})))` followed by a newline. -/
def sig_encode (r s : Nat) : List Char :=
  let rb := serialize (num2bytes r 32)
  let sb := serialize (num2bytes s 32)
  "(7:sig-val(5:ecdsa(1:r32:".toList ++ rb ++ ")(1:s32:".toList ++ sb
    ++ ")))\n".toList

/-- The value of a hexadecimal digit character, `none` for anything else. -/
def hexVal (c : Char) : Option Nat :=
  if '0' ≤ c ∧ c ≤ '9' then some (c.toNat - Char.toNat '0')
  else if 'a' ≤ c ∧ c ≤ 'f' then some (c.toNat - Char.toNat 'a' + 10)
  else if 'A' ≤ c ∧ c ≤ 'F' then some (c.toNat - Char.toNat 'A' + 10)
  else none

/-- `binascii.unhexlify` on a string: consecutive pairs of hexadecimal digits
become bytes; an odd-length string or a non-hexadecimal digit raises
`TypeError` (Python 2 `binascii`). -/
def unhexChars : List Char → Except PyError (List Char)
  | [] => .ok []
  | [_] => .error .typeError
  | a :: b :: rest =>
    match hexVal a, hexVal b with
    | some ha, some hb =>
      match unhexChars rest with
      | .ok bs => .ok (Char.ofNat (ha * 16 + hb) :: bs)
      | .error e => .error e
    | _, _ => .error .typeError

/-- `binascii.unhexlify` as applied to a session field, which may still be
`None` (Python raises `TypeError` on `None`). -/
def unhexlify : Option (List Char) → Except PyError (List Char)
  | none => .error .typeError
  | some s => unhexChars s

/-- The public-key record produced by the key-registry collaborator chain
`decode.load_public_key(keyring.export_public_key(user_id=...))`: the parts
the embedded code reads are the keygrip and the user id. -/
structure PubKey where
  keygrip : List Char
  user_id : List Char
deriving DecidableEq, Repr

/-- The external collaborators consumed by `pksign`, as opaque parameters:
`exportPublicKey u` is the composite registry lookup
`decode.load_public_key(keyring.export_public_key(user_id=u), use_custom=True)`
(which may fail when no key matches), and `sign pk d` is the signing-device
round trip `encode.Factory.from_public_key(pk, pk.user_id).conn.sign(d)`
returning the pair `(r, s)`. -/
structure Backend where
  exportPublicKey : Option (List Char) → Except PyError PubKey
  sign : PubKey → List Char → Nat × Nat

/-- Observable calls to the external collaborators, in order. -/
inductive Event where
  | registryLookup (userId : Option (List Char))
  | backendSign (digest : List Char)
deriving DecidableEq, Repr

/-- `pksign(keygrip, digest, algo)` from the source, with the collaborator
calls recorded in a trace:

    assert algo == '8'
    pubkey = decode.load_public_key(keyring.export_public_key(user_id=None),
                                    use_custom=True)
    f = encode.Factory.from_public_key(pubkey=pubkey, user_id=pubkey['user_id'])
    with contextlib.closing(f):
        assert f.pubkey.keygrip == binascii.unhexlify(keygrip)
        r, s = f.conn.sign(binascii.unhexlify(digest))
        return sig_encode(r, s)

The registry is queried with `user_id=None`; the session's `keygrip` appears
only inside the equality assertion, after resolution.  `contextlib.closing`
releases the factory on every path and has no further observable effect. -/
def pksign (B : Backend) (keygrip digest algo : Option (List Char)) :
    Except PyError (List Char) × List Event :=
  if algo = some ['8'] then
    match B.exportPublicKey none with
    | .error e => (.error e, [.registryLookup none])
    | .ok pubkey =>
      match unhexlify keygrip with
      | .error e => (.error e, [.registryLookup none])
      | .ok kg =>
        if pubkey.keygrip = kg then
          match unhexlify digest with
          | .error e => (.error e, [.registryLookup none])
          | .ok dg =>
            let rs := B.sign pubkey dg
            (.ok (sig_encode rs.1 rs.2), [.registryLookup none, .backendSign dg])
        else (.error .assertionError, [.registryLookup none])
  else (.error .assertionError, [])

/-- Python `line.split(' ')`: split on every single space, keeping empty
fields; the result is never empty ('' splits to ['']). -/
def splitSpace : List Char → List (List Char)
  | [] => [[]]
  | c :: cs =>
    if c = ' ' then [] :: splitSpace cs
    else (c :: (splitSpace cs).headD []) :: (splitSpace cs).tail

/-- The per-connection mutable state of `handle_connection`: the three locals
`keygrip`, `digest` and `algo`, all initially `None`. -/
structure Session where
  keygrip : Option (List Char)
  digest : Option (List Char)
  algo : Option (List Char)
deriving DecidableEq, Repr

/-- The session as created on accept: all three fields unset. -/
def initialSession : Session := ⟨none, none, none⟩

/-- How a connection's handling ends: `eof` when the line reader hits
end-of-input (the client disconnected mid-read, Python `EOFError`), `closed`
when an unrecognized command makes `handle_connection` return, and `err e`
when a Python exception propagates out of `handle_connection`. -/
inductive ConnTerm where
  | eof
  | closed
  | err (e : PyError)
deriving DecidableEq, Repr

/-- The outcome of handling one command line: either the loop continues with
a new state after sending `out`, or the handling of the connection stops
(unrecognized command or exception) with `st` the session at that moment. -/
inductive StepOut where
  | cont (st : Session) (out : List (List Char))
  | stop (st : Session) (out : List (List Char)) (t : ConnTerm)
deriving DecidableEq, Repr

/-- The `OK` status line. -/
def okLine : List Char := "OK\n".toList

/-- The `if`/`elif` chain of the `while True` body of `handle_connection`,
dispatching on `parts[0]` with `args = parts[1:]`; unless the command is
unrecognized or an exception is raised, the cycle finishes with
`conn.sendall('OK\n')`.  `SIGKEY` runs `keygrip, = args` and `SETHASH` runs
`algo, digest = args`, each raising `ValueError` unless the argument count
matches exactly. -/
def dispatch (B : Backend) (st : Session) (command : List Char)
    (args : List (List Char)) : StepOut :=
  if command = "RESET".toList ∨ command = "OPTION".toList
      ∨ command = "HAVEKEY".toList ∨ command = "SETKEYDESC".toList then
    .cont st [okLine]
  else if command = "GETINFO".toList then
    .cont st ["D 2.1.11\n".toList, okLine]
  else if command = "AGENT_ID".toList then
    .cont st ["D TREZOR\n".toList, okLine]
  else if command = "SIGKEY".toList then
    match args with
    | [kg] => .cont { st with keygrip := some kg } [okLine]
    | _ => .stop st [] (.err .valueError)
  else if command = "SETHASH".toList then
    match args with
    | [a, d] => .cont { st with algo := some a, digest := some d } [okLine]
    | _ => .stop st [] (.err .valueError)
  else if command = "PKSIGN".toList then
    match (pksign B st.keygrip st.digest st.algo).1 with
    | .ok sig => .cont st [('D' :: ' ' :: sig), okLine]
    | .error e => .stop st [] (.err e)
  else
    .stop st [] .closed

/-- One iteration of the `while True` body of `handle_connection`: split the
line on spaces (`parts = line.split(' ')`, never empty) and dispatch on
`parts[0]`. -/
def step (B : Backend) (st : Session) (line : List Char) : StepOut :=
  match splitSpace line with
  | [] => .stop st [] (.err .indexError)
  | command :: args => dispatch B st command args

/-- The read-dispatch-reply loop of `handle_connection`, run from state `st`
over the connection's remaining inbound lines.  Modelled from the spec: the
line reader `keyring.recvline` (not under `src/`) blocks until a full line
arrives and raises `EOFError` on transport-level disconnect, so the inbound
stream is a list of complete lines and its exhaustion is the `eof` ending.
Returns every `sendall` payload, in order, and how the handling ended. -/
def handleFrom (B : Backend) (st : Session) :
    List (List Char) → List (List Char) × ConnTerm
  | [] => ([], .eof)
  | line :: rest =>
    match step B st line with
    | .cont st2 out =>
      ((out ++ (handleFrom B st2 rest).1), (handleFrom B st2 rest).2)
    | .stop _ out t => (out, t)

/-- `handle_connection(conn)` from the source: initialize the session, send
the `OK` greeting, then run the command loop. -/
def handle_connection (B : Backend) (lines : List (List Char)) :
    List (List Char) × ConnTerm :=
  (okLine :: (handleFrom B initialSession lines).1,
   (handleFrom B initialSession lines).2)

/-- How the server's accept loop ends on a finite batch of incoming
connections: `accepting` means every connection was served and the loop is
still blocked accepting more; `eofBreak` is the `except EOFError: break` arm
of `main`; `crash e` is any other exception propagating out of `main`'s
`for` loop. -/
inductive ServerTerm where
  | accepting
  | eofBreak
  | crash (e : PyError)
deriving DecidableEq, Repr

/-- The `for conn in yield_connections(sock)` loop of `main`, applied to the
finite list of connections that arrive (each a list of inbound lines;
`yield_connections` is an infinite accept stream, so a finite batch leaves
the loop `accepting`).  Each connection is handled under
`contextlib.closing`; `EOFError` is caught and breaks the loop; any other
exception propagates.  Returns the outputs of the connections actually
served, in order. -/
def mainLoop (B : Backend) :
    List (List (List Char)) → List (List (List Char)) × ServerTerm
  | [] => ([], .accepting)
  | conn :: rest =>
    match handle_connection B conn with
    | (out, .closed) =>
      ((out :: (mainLoop B rest).1), (mainLoop B rest).2)
    | (out, .eof) => ([out], .eofBreak)
    | (out, .err e) => ([out], .crash e)

/-- A concrete backend used to instantiate theorems: the registry resolves
every identity to a key with empty keygrip and user id, and the signing
device returns `(0, 0)`. -/
def trivialBackend : Backend :=
  ⟨fun _ => .ok ⟨[], []⟩, fun _ _ => (0, 0)⟩

/-! ### Wire-codec lemmas -/

theorem replace1_append (pat : Char) (rep a b : List Char) :
    replace1 pat rep (a ++ b) = replace1 pat rep a ++ replace1 pat rep b := by
  induction a with
  | nil => rfl
  | cons c cs ih => simp [replace1, ih]

theorem serialize_cons (c : Char) (cs : List Char) :
    serialize (c :: cs)
      = (if c = '%' ∨ c = '\n' ∨ c = '\r' then escSeq c else [c])
          ++ serialize cs := by
  have hd : ∀ l, serialize l
      = replace1 '\r' (escSeq '\r') (replace1 '\n' (escSeq '\n')
          (replace1 '%' (escSeq '%') l)) := fun _ => rfl
  rw [hd (c :: cs), hd cs,
    show replace1 '%' (escSeq '%') (c :: cs)
      = (if c = '%' then escSeq '%' else [c]) ++ replace1 '%' (escSeq '%') cs
      from rfl,
    replace1_append, replace1_append]
  congr 1
  by_cases h1 : c = '%'
  · subst h1; decide
  · rw [if_neg h1]
    by_cases h2 : c = '\n'
    · subst h2; decide
    · by_cases h3 : c = '\r'
      · subst h3; decide
      · simp [replace1, h1, h2, h3]

theorem serialize_eq_single_pass (data : List Char) :
    serialize data = escapeSpec data := by
  induction data with
  | nil => rfl
  | cons c cs ih => rw [serialize_cons, ih]; rfl

theorem head_block_no_lf_cr (c : Char) :
    ¬ '\n' ∈ (if c = '%' ∨ c = '\n' ∨ c = '\r' then escSeq c else [c]) ∧
    ¬ '\r' ∈ (if c = '%' ∨ c = '\n' ∨ c = '\r' then escSeq c else [c]) := by
  by_cases h : c = '%' ∨ c = '\n' ∨ c = '\r'
  · rw [if_pos h]
    rcases h with h | h | h <;> subst h <;> exact ⟨by decide, by decide⟩
  · rw [if_neg h]
    push_neg at h
    constructor <;> intro hm <;> simp at hm
    · exact h.2.1 hm.symm
    · exact h.2.2 hm.symm

/-- C4: the sequential three-replacement `serialize` of the source is
equivalent to the spec's single left-to-right pass over the original text
(no `%` introduced by a substitution is ever re-escaped), and the three
spec examples hold. -/
theorem escape_single_pass_equiv :
    (∀ data, serialize data = escapeSpec data) ∧
    serialize [] = [] ∧
    serialize ['%'] = "%25".toList ∧
    serialize ('a' :: '\n' :: ['b']) = "a%0Ab".toList :=
  ⟨serialize_eq_single_pass, rfl, by decide, by decide⟩

/-- C9: the output of `serialize` never contains a line-feed or a
carriage-return, so an escaped payload cannot break the newline-terminated
line framing. -/
theorem escape_no_line_break (data : List Char) :
    ¬ '\n' ∈ serialize data ∧ ¬ '\r' ∈ serialize data := by
  rw [serialize_eq_single_pass]
  induction data with
  | nil => exact ⟨by simp [escapeSpec], by simp [escapeSpec]⟩
  | cons c cs ih =>
    rw [show escapeSpec (c :: cs)
        = (if c = '%' ∨ c = '\n' ∨ c = '\r' then escSeq c else [c])
            ++ escapeSpec cs from rfl]
    constructor <;> intro hm <;> rw [List.mem_append] at hm
    · rcases hm with hm | hm
      · exact (head_block_no_lf_cr c).1 hm
      · exact ih.1 hm
    · rcases hm with hm | hm
      · exact (head_block_no_lf_cr c).2 hm
      · exact ih.2 hm

/-- C5: on `r = s = 0` the signature encoder produces, byte for byte, the
fixed S-expression with two runs of 32 zero bytes and a terminating
newline. -/
theorem sig_encode_zero_golden :
    sig_encode 0 0
      = "(7:sig-val(5:ecdsa(1:r32:".toList
          ++ List.replicate 32 (Char.ofNat 0)
          ++ ")(1:s32:".toList
          ++ List.replicate 32 (Char.ofNat 0)
          ++ ")))\n".toList := by
  decide

/-! ### `pksign` lemmas -/

theorem pksign_export_err (B : Backend) (kg dg : List Char) (e : PyError)
    (hE : B.exportPublicKey none = .error e) :
    pksign B (some kg) (some dg) (some ['8'])
      = (.error e, [.registryLookup none]) := by
  simp [pksign, hE]

theorem pksign_badhex_key (B : Backend) (kg dg : List Char) (pk : PubKey)
    (e : PyError) (hE : B.exportPublicKey none = .ok pk)
    (hk : unhexChars kg = .error e) :
    pksign B (some kg) (some dg) (some ['8'])
      = (.error e, [.registryLookup none]) := by
  simp [pksign, unhexlify, hE, hk]

theorem pksign_grip_mismatch (B : Backend) (kg dg : List Char) (pk : PubKey)
    (k : List Char) (hE : B.exportPublicKey none = .ok pk)
    (hk : unhexChars kg = .ok k) (hg : pk.keygrip ≠ k) :
    pksign B (some kg) (some dg) (some ['8'])
      = (.error .assertionError, [.registryLookup none]) := by
  simp [pksign, unhexlify, hE, hk, hg]

theorem pksign_badhex_digest (B : Backend) (kg dg : List Char) (pk : PubKey)
    (k : List Char) (e : PyError) (hE : B.exportPublicKey none = .ok pk)
    (hk : unhexChars kg = .ok k) (hg : pk.keygrip = k)
    (hd : unhexChars dg = .error e) :
    pksign B (some kg) (some dg) (some ['8'])
      = (.error e, [.registryLookup none]) := by
  simp [pksign, unhexlify, hE, hk, hg, hd]

theorem pksign_success (B : Backend) (kg dg : List Char) (pk : PubKey)
    (k d : List Char) (hE : B.exportPublicKey none = .ok pk)
    (hk : unhexChars kg = .ok k) (hg : pk.keygrip = k)
    (hd : unhexChars dg = .ok d) :
    pksign B (some kg) (some dg) (some ['8'])
      = (.ok (sig_encode (B.sign pk d).1 (B.sign pk d).2),
         [.registryLookup none, .backendSign d]) := by
  simp [pksign, unhexlify, hE, hk, hg, hd]

/-- C3: whenever the session's algorithm field differs from `'8'` — in
particular when `PKSIGN` arrives before any `SETHASH` and the field is still
unset — `pksign` fails on its first assertion with an empty collaborator
trace (no registry lookup, no signing call), and the `PKSIGN` handling stops
with no output at all: no signature data line and no `OK`. -/
theorem pksign_rejects_wrong_algo (B : Backend) (st : Session)
    (h : st.algo ≠ some ['8']) :
    pksign B st.keygrip st.digest st.algo
      = (.error .assertionError, ([] : List Event)) ∧
    step B st ("PKSIGN".toList) = .stop st [] (.err .assertionError) := by
  have hp : pksign B st.keygrip st.digest st.algo
      = (.error .assertionError, ([] : List Event)) := by
    rw [pksign, if_neg h]
  refine ⟨hp, ?_⟩
  have e2 : step B st ("PKSIGN".toList)
      = match (pksign B st.keygrip st.digest st.algo).1 with
        | .ok sig => StepOut.cont st [('D' :: ' ' :: sig), okLine]
        | .error e => StepOut.stop st [] (.err e) := rfl
  rw [e2, hp]

/-- C3 witness: the initial session (no `SETHASH` yet) at a concrete
backend. -/
theorem pksign_rejects_wrong_algo_witness :
    (initialSession.algo ≠ some ['8']) ∧
    (pksign trivialBackend initialSession.keygrip initialSession.digest
        initialSession.algo = (.error .assertionError, ([] : List Event)) ∧
     step trivialBackend initialSession ("PKSIGN".toList)
        = .stop initialSession [] (.err .assertionError)) :=
  ⟨by decide,
   pksign_rejects_wrong_algo trivialBackend initialSession (by decide)⟩

/-- C2: with the supported algorithm staged, the signing procedure resolves
the key by querying the registry with the implicit default identity `none`
— every registry lookup in the trace uses `none`, and one happens first —
while the `SIGKEY`-supplied identifier `kg` is used only afterwards, in the
equality assertion comparing the resolved key's keygrip with the binary
(hex) decoding of `kg`: a mismatch is an assertion failure, and on a match
the signature is computed from the key resolved via the default identity. -/
theorem pksign_uses_default_identity (B : Backend) (kg dg : List Char) :
    (∀ u, Event.registryLookup u ∈ (pksign B (some kg) (some dg) (some ['8'])).2
        → u = none) ∧
    ((pksign B (some kg) (some dg) (some ['8'])).2.head?
        = some (Event.registryLookup none)) ∧
    (∀ pk, B.exportPublicKey none = .ok pk →
      (∀ h, unhexlify (some kg) = .ok h → pk.keygrip ≠ h →
        (pksign B (some kg) (some dg) (some ['8'])).1
          = .error .assertionError) ∧
      (∀ h d, unhexlify (some kg) = .ok h → pk.keygrip = h →
        unhexlify (some dg) = .ok d →
        (pksign B (some kg) (some dg) (some ['8'])).1
          = .ok (sig_encode (B.sign pk d).1 (B.sign pk d).2))) := by
  rcases hE : B.exportPublicKey none with e | pk
  · refine ⟨?_, ?_, ?_⟩
    · intro u hu
      rw [pksign_export_err B kg dg e hE] at hu
      simpa using hu
    · rw [pksign_export_err B kg dg e hE]
      rfl
    · intro pk hpk
      exact absurd hpk (by simp)
  · rcases hk : unhexChars kg with e | k
    · refine ⟨?_, ?_, ?_⟩
      · intro u hu
        rw [pksign_badhex_key B kg dg pk e hE hk] at hu
        simpa using hu
      · rw [pksign_badhex_key B kg dg pk e hE hk]
        rfl
      · intro pk2 hpk
        injection hpk with hpk
        subst hpk
        constructor
        · intro h hh
          rw [show unhexlify (some kg) = unhexChars kg from rfl, hk] at hh
          exact absurd hh (by simp)
        · intro h d hh
          rw [show unhexlify (some kg) = unhexChars kg from rfl, hk] at hh
          exact absurd hh (by simp)
    · by_cases hg : pk.keygrip = k
      · rcases hd : unhexChars dg with e | d
        · refine ⟨?_, ?_, ?_⟩
          · intro u hu
            rw [pksign_badhex_digest B kg dg pk k e hE hk hg hd] at hu
            simpa using hu
          · rw [pksign_badhex_digest B kg dg pk k e hE hk hg hd]
            rfl
          · intro pk2 hpk
            injection hpk with hpk
            subst hpk
            constructor
            · intro h hh hne
              rw [show unhexlify (some kg) = unhexChars kg from rfl, hk] at hh
              injection hh with hh
              exact absurd hg (hh ▸ hne)
            · intro h d2 hh hgr hdd
              rw [show unhexlify (some dg) = unhexChars dg from rfl, hd] at hdd
              exact absurd hdd (by simp)
        · refine ⟨?_, ?_, ?_⟩
          · intro u hu
            rw [pksign_success B kg dg pk k d hE hk hg hd] at hu
            simpa using hu
          · rw [pksign_success B kg dg pk k d hE hk hg hd]
            rfl
          · intro pk2 hpk
            injection hpk with hpk
            subst hpk
            constructor
            · intro h hh hne
              rw [show unhexlify (some kg) = unhexChars kg from rfl, hk] at hh
              injection hh with hh
              exact absurd hg (hh ▸ hne)
            · intro h d2 hh hgr hdd
              rw [show unhexlify (some dg) = unhexChars dg from rfl, hd] at hdd
              injection hdd with hdd
              subst hdd
              rw [pksign_success B kg dg pk k d hE hk hg hd]
      · refine ⟨?_, ?_, ?_⟩
        · intro u hu
          rw [pksign_grip_mismatch B kg dg pk k hE hk hg] at hu
          simpa using hu
        · rw [pksign_grip_mismatch B kg dg pk k hE hk hg]
          rfl
        · intro pk2 hpk
          injection hpk with hpk
          subst hpk
          constructor
          · intro h hh hne
            rw [pksign_grip_mismatch B kg dg pk k hE hk hg]
          · intro h d2 hh hgr hdd
            rw [show unhexlify (some kg) = unhexChars kg from rfl, hk] at hh
            injection hh with hh
            exact absurd hgr (hh ▸ hg)

/-- C2 witness: the trivial backend with the empty hex identifier and
digest; the lookup in the trace uses the default identity and the signature
is computed from the key it resolves. -/
theorem pksign_uses_default_identity_witness :
    (Event.registryLookup none
        ∈ (pksign trivialBackend (some []) (some []) (some ['8'])).2) ∧
    ((none : Option (List Char)) = none) ∧
    (trivialBackend.exportPublicKey none = .ok ⟨[], []⟩) ∧
    (unhexlify (some ([] : List Char)) = .ok []) ∧
    ((pksign trivialBackend (some []) (some []) (some ['8'])).1
        = .ok (sig_encode (trivialBackend.sign ⟨[], []⟩ []).1
            (trivialBackend.sign ⟨[], []⟩ []).2)) :=
  ⟨by decide,
   (pksign_uses_default_identity trivialBackend [] []).1 none (by decide),
   rfl, rfl,
   ((pksign_uses_default_identity trivialBackend [] []).2.2 ⟨[], []⟩
      rfl).2 [] [] rfl rfl rfl⟩


/-! ### Session-machine lemmas -/

theorem splitSpace_ne_nil (l : List Char) : splitSpace l ≠ [] := by
  cases l with
  | nil => simp [splitSpace]
  | cons c cs => simp only [splitSpace]; split <;> simp

theorem step_eq (B : Backend) (st : Session) (line command : List Char)
    (args : List (List Char)) (e : splitSpace line = command :: args) :
    step B st line = dispatch B st command args := by
  unfold step
  rw [e]


theorem splitSpace_cons_exists (line : List Char) :
    ∃ c a, splitSpace line = c :: a := by
  rcases hsp : splitSpace line with _ | ⟨c, a⟩
  · exact absurd hsp (splitSpace_ne_nil line)
  · exact ⟨c, a, rfl⟩

/-- C6: the very first payload a connection ever receives is the `OK`
greeting, sent before any command is read; and every command cycle that
completes (a no-op, a data-producing command, a state-setting command or a
successful `PKSIGN`) sends exactly one terminal `OK` line — on its own for
plain commands, immediately after the single data line otherwise. -/
theorem greeting_and_ok_discipline :
    (∀ B lines, ∃ rest, (handle_connection B lines).1 = okLine :: rest) ∧
    (∀ B st line st2 out, step B st line = .cont st2 out →
       out = [okLine] ∨ ∃ d, out = [d, okLine] ∧ d.take 2 = ['D', ' ']) := by
  constructor
  · intro B lines
    exact ⟨(handleFrom B initialSession lines).1, rfl⟩
  · intro B st line st2 out h
    obtain ⟨c, a, e⟩ := splitSpace_cons_exists line
    rw [step_eq B st line c a e] at h
    unfold dispatch at h
    repeat' split at h
    all_goals
      first
        | (injection h with h1 h2; subst h2; left; rfl)
        | (injection h with h1 h2; subst h2; right; exact ⟨_, rfl, rfl⟩)
        | (injection h)

/-- C6 witness: a `RESET` cycle at a concrete state emits exactly one `OK`
line. -/
theorem greeting_and_ok_discipline_witness :
    (step trivialBackend initialSession ("RESET".toList)
        = .cont initialSession [okLine]) ∧
    ([okLine] = [okLine] ∨
      ∃ d, [okLine] = [d, okLine] ∧ d.take 2 = ['D', ' ']) :=
  ⟨by decide,
   greeting_and_ok_discipline.2 trivialBackend initialSession ("RESET".toList)
     initialSession [okLine] (by decide)⟩

/-- C7: a command line whose command token is none of the nine recognized
commands makes the handler stop without sending anything: the cycle produces
no output, and the rest of the session (whatever lines would follow) is
abandoned with the connection-closing `closed` ending, so no bytes follow
the `OK` that acknowledged the previous command. -/
theorem unknown_command_closes (B : Backend) (st : Session)
    (line : List Char) (rest : List (List Char))
    (h : ¬ (splitSpace line).headD [] ∈
        ["RESET".toList, "OPTION".toList, "HAVEKEY".toList,
         "SETKEYDESC".toList, "GETINFO".toList, "AGENT_ID".toList,
         "SIGKEY".toList, "SETHASH".toList, "PKSIGN".toList]) :
    step B st line = .stop st [] .closed ∧
    handleFrom B st (line :: rest) = ([], .closed) := by
  obtain ⟨c, a, e⟩ := splitSpace_cons_exists line
  rw [e] at h
  simp only [List.headD_cons, List.mem_cons, List.not_mem_nil, or_false,
    not_or] at h
  obtain ⟨h1, h2, h3, h4, h5, h6, h7, h8, h9⟩ := h
  have hno : ¬ (c = "RESET".toList ∨ c = "OPTION".toList
      ∨ c = "HAVEKEY".toList ∨ c = "SETKEYDESC".toList) := by
    push_neg
    exact ⟨h1, h2, h3, h4⟩
  have hstep : step B st line = .stop st [] .closed := by
    rw [step_eq B st line c a e]
    unfold dispatch
    rw [if_neg hno, if_neg h5, if_neg h6, if_neg h7, if_neg h8, if_neg h9]
  refine ⟨hstep, ?_⟩
  simp only [handleFrom, hstep]

/-- C7 witness: the unrecognized command `BYE` (with a trailing line that is
never read). -/
theorem unknown_command_closes_witness :
    (¬ (splitSpace ("BYE".toList)).headD [] ∈
        ["RESET".toList, "OPTION".toList, "HAVEKEY".toList,
         "SETKEYDESC".toList, "GETINFO".toList, "AGENT_ID".toList,
         "SIGKEY".toList, "SETHASH".toList, "PKSIGN".toList]) ∧
    (step trivialBackend initialSession ("BYE".toList)
        = .stop initialSession [] .closed ∧
     handleFrom trivialBackend initialSession
        ["BYE".toList, "RESET".toList] = ([], .closed)) :=
  ⟨by decide,
   unknown_command_closes trivialBackend initialSession ("BYE".toList)
     ["RESET".toList] (by decide)⟩

/-- C8: for every session state, handling a line whose command token is one
of the no-ops `RESET`, `OPTION`, `HAVEKEY` or `SETKEYDESC` — whatever its
argument list — leaves the session record untouched and emits exactly the
single `OK` line. -/
theorem noop_commands_no_effect (B : Backend) (st : Session)
    (line : List Char)
    (h : (splitSpace line).headD [] ∈
        ["RESET".toList, "OPTION".toList, "HAVEKEY".toList,
         "SETKEYDESC".toList]) :
    step B st line = .cont st [okLine] := by
  obtain ⟨c, a, e⟩ := splitSpace_cons_exists line
  rw [e] at h
  simp only [List.headD_cons, List.mem_cons, List.not_mem_nil, or_false] at h
  rw [step_eq B st line c a e]
  unfold dispatch
  rw [if_pos h]

/-- C8 witness: `HAVEKEY` with two arguments at a session with all fields
set; the state survives unchanged and the only output is `OK`. -/
theorem noop_commands_no_effect_witness :
    ((splitSpace ("HAVEKEY a b".toList)).headD [] ∈
        ["RESET".toList, "OPTION".toList, "HAVEKEY".toList,
         "SETKEYDESC".toList]) ∧
    (step trivialBackend ⟨some ['k'], some ['d'], some ['8']⟩
        ("HAVEKEY a b".toList)
      = .cont ⟨some ['k'], some ['d'], some ['8']⟩ [okLine]) :=
  ⟨by decide,
   noop_commands_no_effect trivialBackend ⟨some ['k'], some ['d'], some ['8']⟩
     ("HAVEKEY a b".toList) (by decide)⟩

/-- C10: a `SIGKEY` line with an argument count other than one, or a
`SETHASH` line with an argument count other than two, fails in tuple
unpacking before any assignment: the step aborts with `ValueError`, the
session fields keep their prior values, and nothing — in particular no
`OK` — is sent. -/
theorem arity_mismatch_aborts (B : Backend) (st : Session) (line : List Char)
    (h : ((splitSpace line).headD [] = "SIGKEY".toList
            ∧ (splitSpace line).tail.length ≠ 1)
        ∨ ((splitSpace line).headD [] = "SETHASH".toList
            ∧ (splitSpace line).tail.length ≠ 2)) :
    step B st line = .stop st [] (.err .valueError) := by
  obtain ⟨c, a, e⟩ := splitSpace_cons_exists line
  rw [e] at h
  simp only [List.headD_cons, List.tail_cons] at h
  rw [step_eq B st line c a e]
  unfold dispatch
  rcases h with ⟨hc, hl⟩ | ⟨hc, hl⟩
  · subst hc
    rw [if_neg (by decide), if_neg (by decide), if_neg (by decide),
      if_pos rfl]
    rcases a with _ | ⟨x, _ | ⟨y, t⟩⟩
    · rfl
    · exact absurd rfl hl
    · rfl
  · subst hc
    rw [if_neg (by decide), if_neg (by decide), if_neg (by decide),
      if_neg (by decide), if_pos rfl]
    rcases a with _ | ⟨x, _ | ⟨y, _ | ⟨z, t⟩⟩⟩
    · rfl
    · rfl
    · exact absurd rfl hl
    · rfl

/-- C10 witness: `SIGKEY` with no argument against a session with all fields
set; the state is kept and the step aborts with `ValueError`. -/
theorem arity_mismatch_aborts_witness :
    (((splitSpace ("SIGKEY".toList)).headD [] = "SIGKEY".toList
        ∧ (splitSpace ("SIGKEY".toList)).tail.length ≠ 1)
      ∨ ((splitSpace ("SIGKEY".toList)).headD [] = "SETHASH".toList
          ∧ (splitSpace ("SIGKEY".toList)).tail.length ≠ 2)) ∧
    (step trivialBackend ⟨some ['k'], some ['d'], some ['8']⟩
        ("SIGKEY".toList)
      = .stop ⟨some ['k'], some ['d'], some ['8']⟩ [] (.err .valueError)) :=
  ⟨by decide,
   arity_mismatch_aborts trivialBackend ⟨some ['k'], some ['d'], some ['8']⟩
     ("SIGKEY".toList) (by decide)⟩


/-- C1 counterexample: two clients arrive; the first disconnects immediately
after the greeting (end-of-input while reading a line, the `eof` ending).
The claim would have the accept loop continue and serve the second client
(two served connections), but `main` catches `EOFError` with `break`: only
one connection is ever served and the loop ends with `eofBreak`. -/
theorem accept_loop_continues_counterexample :
    (handle_connection trivialBackend []).2 = ConnTerm.eof ∧
    (mainLoop trivialBackend [[], []]).1.length ≠ 2 ∧
    (mainLoop trivialBackend [[], []]).2 = ServerTerm.eofBreak := by
  decide

/-- C1 amended: when a connection's handling ends because the client
disconnects mid-read (`EOFError` from the line reader), `main`'s
`except EOFError: break` terminates the accept loop — that connection is the
last one served, the loop's ending is `eofBreak`, and no subsequent
connection is accepted. -/
theorem eof_breaks_accept_loop (B : Backend) (conn : List (List Char))
    (rest : List (List (List Char)))
    (h : (handle_connection B conn).2 = ConnTerm.eof) :
    mainLoop B (conn :: rest)
      = ([(handle_connection B conn).1], ServerTerm.eofBreak) := by
  rcases hc : handle_connection B conn with ⟨out, t⟩
  rw [hc] at h
  simp only at h
  subst h
  simp [mainLoop, hc]

/-- C1 amended witness: a client that disconnects right after the greeting,
with another connection waiting that is never served. -/
theorem eof_breaks_accept_loop_witness :
    ((handle_connection trivialBackend []).2 = ConnTerm.eof) ∧
    (mainLoop trivialBackend [[], ["RESET".toList]]
      = ([(handle_connection trivialBackend []).1], ServerTerm.eofBreak)) :=
  ⟨by decide,
   eof_breaks_accept_loop trivialBackend [] [["RESET".toList]] (by decide)⟩

end GpgAgent
